import Mathlib

/-!
Verification of the envconfig configuration loader.

The development shallowly embeds the repository's field-population engine,
source merger and text-interpolation resolver:

* `setMergedSource` models building the merged key/value mapping in `Set`
  (`maps.Copy` over the configured sources in order File, Environment, Flags).
* `resolveReplacement` models the `${NAME}` text-replacement algorithm shared by
  `resolveReplacement` (merged-source variant), `handleTextReplacement`
  (`env.go`, `file.go`, `parser.go`); all scan with
  `textReplacementRegex.FindStringSubmatch` (leftmost match, no capture groups)
  and substitute with `strings.ReplaceAll`, with the lookup function abstracted
  (`s.source` map indexing or `os.Getenv`, both yielding `""` for absent keys).
* `populateConfigFields` / `populateNestedConfig` model the reflective struct
  walk of `populateConfig` / `populateNestedConfig` in `envconfig.go`, together
  with `handlePrefixTag`, `checkRequiredTag` (`tag.go`), `handleJSONTag`,
  `fetchEnvironmentVariable` and the `setFieldValue` coercion layer.
* `populateStructB` / `chainHandleVal` model the tag-handler-chain variant
  (`populateStruct` with the `PrefixTagHandler` → `JSONTagHandler` →
  `EnvTagHandler` → `DefaultTagHandler` → `RequiredTagHandler` chain).

Go machine integers are modelled as unbounded `Int` (the claims never exercise
overflow); `float64` and `time.Duration` fields, which no claim touches, are
outside the modelled subset of field types. JSON deserialization
(`encoding/json`, an external library) is abstracted as an oracle function.
-/

/-! ### Go string primitives used by the loader -/

/-- Models `unicode.IsSpace` on the Latin-1 range (the full table also holds
higher code points in category Zs, which no value in the claims contains). -/
def goIsSpace (c : Char) : Bool :=
  c == ' ' || c == '\t' || c == '\n' || c == '\x0b' || c == '\x0c' || c == '\r' ||
    c == '\x85' || c == '\xa0'

/-- Models `strings.TrimSpace` on the character list of a string. -/
def trimSpaceL (cs : List Char) : List Char :=
  ((cs.dropWhile goIsSpace).reverse.dropWhile goIsSpace).reverse

/-- Models `strings.TrimSpace`. -/
def trimSpace (s : String) : String :=
  String.mk (trimSpaceL s.toList)

/-- Accumulator pass of `strings.Split` on the separator `","`. -/
def splitCommaAux : List Char → List Char → List (List Char)
  | [], acc => [acc.reverse]
  | c :: rest, acc =>
    if c == ',' then acc.reverse :: splitCommaAux rest []
    else splitCommaAux rest (c :: acc)

/-- Models `strings.Split(s, ",")`: one element per comma-separated segment. -/
def splitComma (s : String) : List String :=
  (splitCommaAux s.toList []).map String.mk

def isDigitCh (c : Char) : Bool := '0' ≤ c && c ≤ '9'

/-- Base-10 digit run: `some` only when the list is nonempty and all digits. -/
def digitsToNatAux : List Char → Nat → Option Nat
  | [], acc => some acc
  | c :: rest, acc =>
    if isDigitCh c then digitsToNatAux rest (acc * 10 + (c.toNat - 48)) else none

def digitsToNat : List Char → Option Nat
  | [] => none
  | cs => digitsToNatAux cs 0

/-- Models `strconv.Atoi`: optional sign followed by one or more base-10
digits; anything else is an error (`none`). Overflow of the host integer range
is not modelled (values in the claims are small). -/
def atoi (s : String) : Option Int :=
  match s.toList with
  | '+' :: rest => (digitsToNat rest).map Int.ofNat
  | '-' :: rest => (digitsToNat rest).map (fun n => -(n : Int))
  | cs => (digitsToNat cs).map Int.ofNat

/-- Models `strconv.ParseBool`: the listed spellings parse, all else errors. -/
def parseBool (s : String) : Option Bool :=
  if s = "1" ∨ s = "t" ∨ s = "T" ∨ s = "TRUE" ∨ s = "true" ∨ s = "True" then some true
  else if s = "0" ∨ s = "f" ∨ s = "F" ∨ s = "FALSE" ∨ s = "false" ∨ s = "False" then some false
  else none

/-- Models `strings.TrimPrefix`. -/
def trimPrefixL (s pre : List Char) : List Char :=
  if pre.isPrefixOf s then s.drop pre.length else s

/-- Models `strings.TrimSuffix`. -/
def trimSuffixL (s suf : List Char) : List Char :=
  if suf.isSuffixOf s then s.take (s.length - suf.length) else s

/-- One scanning step of `strings.ReplaceAll`: at skip count zero, test for the
pattern at the current position; on a match emit the replacement and skip the
rest of the matched occurrence (matches are non-overlapping, left to right). -/
def replAux (pat rep : List Char) : List Char → Nat → List Char
  | [], _ => []
  | _ :: rest, Nat.succ k => replAux pat rep rest k
  | c :: rest, 0 =>
    if pat.isPrefixOf (c :: rest) then rep ++ replAux pat rep rest (pat.length - 1)
    else c :: replAux pat rep rest 0

/-- Models `strings.ReplaceAll(s, pat, rep)` for nonempty `pat` (every pattern
produced by the placeholder scan has at least four characters). -/
def replaceAllL (s pat rep : List Char) : List Char :=
  if pat.isEmpty then s else replAux pat rep s 0

/-! ### Typed errors (`errors.go` taxonomy)

Each constructor stands for one typed error of the package; the `fmt.Errorf`
context wrapping applied at call boundaries preserves the wrapped typed error
(observable through `errors.As`), so it is not modelled. -/

inductive GoError where
  | invalidConfigType
  | requiredField (fieldName : String)
  | invalidOptionConversion (fieldName optionName : String)
  | prefixOption (fieldName : String)
  | fieldConversion (fieldName targetType : String)
  | unsupportedFieldType
  | replacement (variableName : String)
  | jsonUnmarshal
deriving DecidableEq, Repr

/-! ### Source readers and the source merger

`Set` (merged-source variant) builds `s.sources` as
`{FileSource (appended by WithFilepath, when configured)}` followed by
`EnvironmentVariableSource{}, FlagSource{}`, then folds `maps.Copy` over the
loaded mappings into the initially empty `s.source`. A Go map with presence is
a function into `Option String`; `FlagSource.Load` visits only flags that were
explicitly set, so unset flags are absent (`none`) in its mapping. -/

def GoMap : Type := String → Option String

def emptyGoMap : GoMap := fun _ => none

/-- Models `maps.Copy(dst, src)`: every key present in `src` overwrites the
corresponding entry of `dst`; other keys keep their `dst` entry. -/
def mapsCopy (dst src : GoMap) : GoMap :=
  fun k =>
    match src k with
    | some v => some v
    | none => dst k

/-- Models the source-loading loop of `Set`: each loaded mapping is copied
into the accumulated source map in order. -/
def loadSourcesLoop (sources : List GoMap) : GoMap :=
  sources.foldl mapsCopy emptyGoMap

/-- Models how `Set` assembles and merges the configured sources: the file
source first when configured, then the environment source, then the flag
source, each overwriting overlapping keys from earlier sources. -/
def setMergedSource (fileSource : Option GoMap) (envSource flagSource : GoMap) : GoMap :=
  loadSourcesLoop
    ((match fileSource with
      | some f => [f]
      | none => []) ++ [envSource, flagSource])

/-! ### Text interpolation resolver

`textReplacementRegex` is the pattern dollar, open brace, one or more
non-close-brace characters, close brace. `FindStringSubmatch` returns the
leftmost match of the whole pattern (there are no capture groups), or `nil`
when there is none. -/

/-- Leftmost match of `textReplacementRegex`: at each position, a match is a
dollar sign, an open brace, the maximal nonempty run of non-close-brace
characters, and a close brace; on failure scanning resumes one position
later. -/
def findLeftmostMatch : List Char → Option (List Char)
  | [] => none
  | c :: rest =>
    match c, rest with
    | '$', '\x7b' :: t =>
      let body := t.takeWhile (fun ch => ch ≠ '\x7d')
      if body.isEmpty then findLeftmostMatch rest
      else
        match t.drop body.length with
        | '\x7d' :: _ => some ([ '$', '\x7b' ] ++ body ++ [ '\x7d' ])
        | _ => findLeftmostMatch rest
    | _, _ => findLeftmostMatch rest

/-- Models `textReplacementRegex.FindStringSubmatch(value)`: the slice holding
just the leftmost full match, or the empty slice when there is no match. -/
def findStringSubmatch (value : List Char) : List (List Char) :=
  match findLeftmostMatch value with
  | none => []
  | some m => [m]

/-- The reference name inside a matched placeholder:
`TrimSuffix(TrimPrefix(m, "${"), "}")`. -/
def matchName (m : List Char) : String :=
  String.mk (trimSuffixL (trimPrefixL m [ '$', '\x7b' ]) [ '\x7d' ])

/-- The loop body shared by `resolveReplacement` and `handleTextReplacement`:
for each match in the precomputed match slice, look the reference name up; an
empty looked-up value fails with a replacement error naming the variable,
otherwise all occurrences of the exact matched substring are replaced and the
loop continues with the next match. Substituted values are never re-scanned:
the match slice was computed once, up front. -/
def resolveLoop (lookup : String → String) : List (List Char) → List Char →
    Except GoError (List Char)
  | [], value => .ok value
  | m :: ms, value =>
    let environmentValue := matchName m
    let replacementValue := lookup environmentValue
    if replacementValue = "" then .error (.replacement environmentValue)
    else resolveLoop lookup ms (replaceAllL value m (replacementValue.toList))

/-- Models `resolveReplacement` (and the `handleTextReplacement` variants):
scan once with `FindStringSubmatch`, then run the replacement loop. `lookup`
abstracts `s.source[name]` / `e.config[name]` / `os.Getenv(name)`, all of
which yield the empty string for an absent key. -/
def resolveReplacement (lookup : String → String) (value : String) :
    Except GoError String :=
  (resolveLoop lookup (findStringSubmatch value.toList) value.toList).map String.mk

/-! ### Configuration records

A config struct is a list of fields; each field carries its Go name, whether
it is settable (exported), its tag metadata, and its current value. The
modelled field types are `string`, `int`, `bool`, `[]string`, `[]int`, nested
structs, and a placeholder for every other (unsupported) type carrying only
its zero-ness; `float64`, `[]float64` and `time.Duration` fields, which no
claim exercises, are outside the modelled subset. -/

structure Tags where
  envTag : Option String
  defaultTag : Option String
  requiredTag : Option String
  jsonTag : Option String
  prefixTag : Option String
deriving DecidableEq, Repr

mutual
inductive Fld where
  | mk (name : String) (canSet : Bool) (tags : Tags) (value : Val)

inductive Val where
  | str (s : String)
  | intV (n : Int)
  | boolV (b : Bool)
  | strSlice (xs : List String)
  | intSlice (xs : List Int)
  | record (children : FldList)
  | other (zeroFlag : Bool)

inductive FldList where
  | nil
  | cons (f : Fld) (rest : FldList)
end

def FldList.append : FldList → FldList → FldList
  | .nil, ys => ys
  | .cons f rest, ys => .cons f (FldList.append rest ys)

def FldList.get? : FldList → Nat → Option Fld
  | .nil, _ => none
  | .cons f _, 0 => some f
  | .cons _ rest, Nat.succ i => FldList.get? rest i

mutual
/-- Models `reflect.Value.IsZero`: a string is zero when empty, numbers and
booleans at their zero value, a slice when nil (modelled as the empty list),
and a struct when all of its fields are zero. -/
def isZeroVal : Val → Bool
  | .str s => s = ""
  | .intV n => n = 0
  | .boolV b => b = false
  | .strSlice xs => xs.isEmpty
  | .intSlice xs => xs.isEmpty
  | .record cs => isZeroFlds cs
  | .other z => z

def isZeroFlds : FldList → Bool
  | .nil => true
  | .cons (.mk _ _ _ v) rest => isZeroVal v && isZeroFlds rest
end

def isZeroFld : Fld → Bool
  | .mk _ _ _ v => isZeroVal v

/-! ### Environment-variable population engine (`envconfig.go`, `tag.go`)

`Set` without a configured file runs `populateConfig`, which walks the
top-level fields against the process environment. `os.Getenv` is the ambient
oracle `env : String → String` (it yields `""` for unset names);
`encoding/json.Unmarshal` is the external oracle `jsonDec`, returning the
decoded field value or `none` on a decode error. -/

structure Settings where
  prefixValue : String
  env : String → String
  jsonDec : String → Val → Option Val

/-- Models `fetchEnvironmentVariable`: the environment value when nonempty,
else the `default` tag literal when that tag is present, else the (empty)
environment value. -/
def fetchEnvironmentVariable (env : String → String) (key : String) (tags : Tags) : String :=
  let environmentVariable := env key
  if ¬ environmentVariable = "" then environmentVariable
  else
    match tags.defaultTag with
    | some d => d
    | none => environmentVariable

/-- Models `checkRequiredTag` (`tag.go`): with no `required` tag, no error;
otherwise parse the tag value as a boolean — `true` yields a
`RequiredFieldError` naming the key, an unparsable value yields an
`InvalidOptionConversionError`, and `false` no error. -/
def checkRequiredTag (environmentVariableKey : String) (tags : Tags) : Option GoError :=
  match tags.requiredTag with
  | none => none
  | some requiredOptionValue =>
    match parseBool requiredOptionValue with
    | some true => some (.requiredField environmentVariableKey)
    | some false => none
    | none => some (.invalidOptionConversion environmentVariableKey "required")

/-- Element-wise parse of `setIntSliceFieldValue`: split segments are trimmed
and parsed in order; the first failing element aborts with a conversion error
naming the entry key and target type. -/
def parseIntSegments (key : String) : List String → Except GoError (List Int)
  | [] => .ok []
  | seg :: rest =>
    match atoi (trimSpace seg) with
    | none => .error (.fieldConversion key "[]int")
    | some n =>
      match parseIntSegments key rest with
      | .error e => .error e
      | .ok ns => .ok (n :: ns)

/-- Models `setFieldValue` and its per-type helpers (`envconfig.go`): switch on
the field's runtime type; strings are set verbatim, `int` via `strconv.Atoi`,
`bool` via `strconv.ParseBool`, slices by splitting on `","` and trimming each
element; parse failures yield a `FieldConversionError` naming the entry key and
target type and leave the field unchanged; types outside the coercion table
yield an `UnsupportedFieldTypeError`. -/
def setFieldValue (value : Val) (key raw : String) : Option GoError × Val :=
  match value with
  | .str _ => (none, .str raw)
  | .intV n0 =>
    match atoi raw with
    | some n => (none, .intV n)
    | none => (some (.fieldConversion key "int"), .intV n0)
  | .boolV b0 =>
    match parseBool raw with
    | some b => (none, .boolV b)
    | none => (some (.fieldConversion key "bool"), .boolV b0)
  | .strSlice _ => (none, .strSlice ((splitComma raw).map trimSpace))
  | .intSlice xs0 =>
    match parseIntSegments key (splitComma raw) with
    | .ok ns => (none, .intSlice ns)
    | .error e => (some e, .intSlice xs0)
  | .record cs => (some .unsupportedFieldType, .record cs)
  | .other z => (some .unsupportedFieldType, .other z)

/-- Models `handleJSONTag` / `populateJSON` (`envjson` tag): read the
environment value at the JSON key and unmarshal it into the field through the
`encoding/json` oracle; a decode failure is the wrapped unmarshal error. -/
def handleJSONTag (s : Settings) (environmentKey : String) (value : Val) :
    Option GoError × Val :=
  match s.jsonDec (s.env environmentKey) value with
  | some v2 => (none, v2)
  | none => (some .jsonUnmarshal, value)

mutual
/-- Models `populateNestedConfig` (`envconfig.go`): walk the nested struct's
fields in order under the accumulated prefix; the first field error aborts the
walk, keeping the fields already populated and leaving the rest untouched. -/
def populateNestedConfig (s : Settings) (pfx : String) : FldList → Option GoError × FldList
  | .nil => (none, .nil)
  | .cons f rest =>
    match processNestedField s pfx f with
    | (some e, f2) => (some e, .cons f2 rest)
    | (none, f2) =>
      match populateNestedConfig s pfx rest with
      | (e2, rest2) => (e2, .cons f2 rest2)

/-- One iteration of the `populateNestedConfig` loop: skip unexported or
already non-zero fields; an `envjson` tag is handled (at `prefix + jsonKey`)
and ends the field; otherwise `handlePrefixTag` recurses into struct-typed
fields; then the env key is `prefix + envTag` (skipped when the tag is unset),
fetched without the global prefix, falling back to the `default` tag; an empty
fetch runs the required check against the prefixed key; a nonempty fetch is
coerced into the field. -/
def processNestedField (s : Settings) (pfx : String) : Fld → Option GoError × Fld
  | .mk name canSet tags value =>
    if ¬ canSet = true ∨ ¬ isZeroVal value = true then (none, .mk name canSet tags value)
    else
      match tags.jsonTag with
      | some jsonKey =>
        match handleJSONTag s (pfx ++ jsonKey) value with
        | (e, v2) => (e, .mk name canSet tags v2)
      | none =>
        match handlePrefixTagVal s pfx name tags value with
        | (some e, v2) => (some e, .mk name canSet tags v2)
        | (none, v2) =>
          let environmentVariableKey := pfx ++ tags.envTag.getD ""
          if environmentVariableKey = pfx then (none, .mk name canSet tags v2)
          else
            let environmentValue := fetchEnvironmentVariable s.env environmentVariableKey tags
            if environmentValue = "" then
              match checkRequiredTag environmentVariableKey tags with
              | some e => (some e, .mk name canSet tags v2)
              | none => (none, .mk name canSet tags v2)
            else
              match setFieldValue v2 environmentVariableKey environmentValue with
              | (e, v3) => (e, .mk name canSet tags v3)

/-- Models `handlePrefixTag` (`tag.go`) on the field's value: non-struct
fields pass through; a struct field without a `prefix` tag is a
`PrefixOptionError` naming the field; with the tag, the nested struct is
populated under `prefix + prefixTag`. -/
def handlePrefixTagVal (s : Settings) (pfx name : String) (tags : Tags) :
    Val → Option GoError × Val
  | .record cs =>
    match tags.prefixTag with
    | none => (some (.prefixOption name), .record cs)
    | some prefixOptionValue =>
      match populateNestedConfig s (pfx ++ prefixOptionValue) cs with
      | (e, cs2) => (e, .record cs2)
  | v => (none, v)
end

/-- One iteration of the top-level `populateConfig` loop: as the nested loop,
except that the `envjson` key and the required-check key are the bare tag
values, and the fetch key carries the global `WithPrefix` value
(`s.prefix + envTag`). -/
def processTopField (s : Settings) : Fld → Option GoError × Fld
  | .mk name canSet tags value =>
    if ¬ canSet = true ∨ ¬ isZeroVal value = true then (none, .mk name canSet tags value)
    else
      match tags.jsonTag with
      | some jsonKey =>
        match handleJSONTag s jsonKey value with
        | (e, v2) => (e, .mk name canSet tags v2)
      | none =>
        match handlePrefixTagVal s "" name tags value with
        | (some e, v2) => (some e, .mk name canSet tags v2)
        | (none, v2) =>
          let environmentVariableKey := tags.envTag.getD ""
          if environmentVariableKey = "" then (none, .mk name canSet tags v2)
          else
            let environmentValue :=
              fetchEnvironmentVariable s.env (s.prefixValue ++ environmentVariableKey) tags
            if environmentValue = "" then
              match checkRequiredTag environmentVariableKey tags with
              | some e => (some e, .mk name canSet tags v2)
              | none => (none, .mk name canSet tags v2)
            else
              match setFieldValue v2 environmentVariableKey environmentValue with
              | (e, v3) => (e, .mk name canSet tags v3)

/-- Models `populateConfig` (`envconfig.go`): walk the top-level fields in
order; the first field error aborts the walk, keeping the fields already
populated and leaving the rest untouched. The pointer-to-struct check that
precedes the walk is outside the embedding (records are structs by type). -/
def populateConfigFields (s : Settings) : FldList → Option GoError × FldList
  | .nil => (none, .nil)
  | .cons f rest =>
    match processTopField s f with
    | (some e, f2) => (some e, .cons f2 rest)
    | (none, f2) =>
      match populateConfigFields s rest with
      | (e2, rest2) => (e2, .cons f2 rest2)

/-- Models `WithPrefix` (`option.go`): record the global prefix in the
settings. -/
def withPrefixOption (p : String) (s : Settings) : Settings :=
  { s with prefixValue := p }

/-! ### Tag-handler-chain engine (merged-source variant)

The merged-source `Set` runs `populateStruct`, which hands every settable
field to the handler chain `PrefixTagHandler` → `JSONTagHandler` →
`EnvTagHandler` → `DefaultTagHandler` → `RequiredTagHandler`. Values are
resolved from the merged source map `s.source` (with presence), not the
process environment. `DefaultTagHandler.Handle` returns without delegating, so
the chain never reaches `RequiredTagHandler`. -/

structure SettingsB where
  source : String → Option String
  jsonDec : String → Val → Option Val

/-- Indexing the merged source map as `s.source[name]` does: the zero value
`""` for an absent key. -/
def sourceIndex (s : SettingsB) (k : String) : String :=
  (s.source k).getD ""

/-- Models `settings.setFieldValue` of the chain variant with the
`defaultDecoders` table: `time.Duration` and `float64` decoders fall outside
the modelled types; `int` and `bool` decode via `strconv`; the remaining
switch covers `string` and the slice types, everything else being an
`UnsupportedFieldTypeError`. No modelled field type implements the `Setter`
interface. -/
def setFieldValueB (value : Val) (key raw : String) : Option GoError × Val :=
  match value with
  | .intV n0 =>
    match atoi raw with
    | some n => (none, .intV n)
    | none => (some (.fieldConversion key "int"), .intV n0)
  | .boolV b0 =>
    match parseBool raw with
    | some b => (none, .boolV b)
    | none => (some (.fieldConversion key "bool"), .boolV b0)
  | .str _ => (none, .str raw)
  | .strSlice _ => (none, .strSlice ((splitComma raw).map trimSpace))
  | .intSlice xs0 =>
    match parseIntSegments key (splitComma raw) with
    | .ok ns => (none, .intSlice ns)
    | .error e => (some e, .intSlice xs0)
  | .record cs => (some .unsupportedFieldType, .record cs)
  | .other z => (some .unsupportedFieldType, .other z)

/-- The non-recursive tail of the chain: `JSONTagHandler` (when the JSON key
exists in the source, unmarshal, stopping the chain only on error), then
`EnvTagHandler` (when `prefix + envTag` exists in the source, resolve
placeholders and set the field, with no zero-ness check), then
`DefaultTagHandler` (set the `default` literal, keyed by the field name, only
when the field is still zero); `RequiredTagHandler` is never delegated to. -/
def chainTail (s : SettingsB) (pfx name : String) (tags : Tags) (value : Val) :
    Option GoError × Val :=
  let afterJSON : Option GoError × Val :=
    match tags.jsonTag with
    | some jsonVar =>
      match s.source (pfx ++ jsonVar) with
      | some jsonString =>
        match s.jsonDec jsonString value with
        | some v2 => (none, v2)
        | none => (some .jsonUnmarshal, value)
      | none => (none, value)
    | none => (none, value)
  match afterJSON with
  | (some e, v1) => (some e, v1)
  | (none, v1) =>
    let afterEnv : Option GoError × Val :=
      match tags.envTag with
      | some envVar =>
        match s.source (pfx ++ envVar) with
        | some val =>
          match resolveReplacement (sourceIndex s) val with
          | .error e => (some e, v1)
          | .ok resolvedValue => setFieldValueB v1 (pfx ++ envVar) resolvedValue
        | none => (none, v1)
      | none => (none, v1)
    match afterEnv with
    | (some e, v2) => (some e, v2)
    | (none, v2) =>
      match tags.defaultTag with
      | some defaultVal =>
        if isZeroVal v2 = true then setFieldValueB v2 name defaultVal
        else (none, v2)
      | none => (none, v2)

mutual
/-- Models the chain's entry point `PrefixTagHandler.Handle` on a field's
value: a struct field with a `prefix` tag populates the nested struct under
`prefix + prefixTag` and stops the chain; everything else falls through to the
rest of the chain. -/
def chainHandleVal (s : SettingsB) (pfx name : String) (tags : Tags) :
    Val → Option GoError × Val
  | .record cs =>
    match tags.prefixTag with
    | some prefixTagValue =>
      match populateNestedConfigB s (pfx ++ prefixTagValue) cs with
      | (e, cs2) => (e, .record cs2)
    | none => chainTail s pfx name tags (.record cs)
  | v => chainTail s pfx name tags v

/-- Models the chain variant's `populateNestedConfig`: every settable field is
handed to the chain (there is no zero-ness skip); the first error aborts. -/
def populateNestedConfigB (s : SettingsB) (pfx : String) : FldList → Option GoError × FldList
  | .nil => (none, .nil)
  | .cons (.mk name canSet tags value) rest =>
    if ¬ canSet = true then
      match populateNestedConfigB s pfx rest with
      | (e2, rest2) => (e2, .cons (.mk name canSet tags value) rest2)
    else
      match chainHandleVal s pfx name tags value with
      | (some e, v2) => (some e, .cons (.mk name canSet tags v2) rest)
      | (none, v2) =>
        match populateNestedConfigB s pfx rest with
        | (e2, rest2) => (e2, .cons (.mk name canSet tags v2) rest2)
end

/-- Models `populateStruct` of the merged-source `Set`: every settable
top-level field is handed to the chain with the empty prefix; there is no
zero-ness skip in this loop. -/
def populateStructB (s : SettingsB) : FldList → Option GoError × FldList
  | .nil => (none, .nil)
  | .cons (.mk name canSet tags value) rest =>
    if ¬ canSet = true then
      match populateStructB s rest with
      | (e2, rest2) => (e2, .cons (.mk name canSet tags value) rest2)
    else
      match chainHandleVal s "" name tags value with
      | (some e, v2) => (some e, .cons (.mk name canSet tags v2) rest)
      | (none, v2) =>
        match populateStructB s rest with
        | (e2, rest2) => (e2, .cons (.mk name canSet tags v2) rest2)

/-! ### Kind test and concrete data used by the claim instances -/

/-- A field value of struct kind (`reflect.Kind() == reflect.Struct`). -/
def isRecordVal : Val → Bool
  | .record _ => true
  | _ => false

/-- An environment with no variable set: every lookup yields the empty
string. -/
def sEmptyEnv : Settings :=
  { prefixValue := "", env := fun _ => "", jsonDec := fun _ v => some v }

/-- An environment holding `F1` (for a field before the failing one) and
nothing else. -/
def sF1Env : Settings :=
  { prefixValue := ""
    env := fun k => if k = "F1" then "v1" else ""
    jsonDec := fun _ v => some v }

/-- An environment holding the composed nested keys `A_B` and `A_B_C_D`. -/
def sNestedEnv : Settings :=
  { prefixValue := ""
    env := fun k => if k = "A_B" then "double" else if k = "A_B_C_D" then "triple" else ""
    jsonDec := fun _ v => some v }

/-- An environment for the global-prefix claim: the prefixed top-level key,
the unprefixed nested key, and a decoy entry at the prefixed nested key. -/
def sGlobEnv : Settings :=
  withPrefixOption "GLOB_"
    { prefixValue := ""
      env := fun k =>
        if k = "GLOB_K" then "top"
        else if k = "A_B" then "nested"
        else if k = "GLOB_A_B" then "wrong"
        else ""
      jsonDec := fun _ v => some v }

/-- An environment holding the two slice-valued keys of the coercion claim. -/
def sSliceEnv : Settings :=
  { prefixValue := ""
    env := fun k =>
      if k = "NUMS" then "1, 2, 3"
      else if k = "WORDS" then "first, second, third"
      else ""
    jsonDec := fun _ v => some v }

/-- An environment holding `KEY` while the corresponding field is
pre-seeded. -/
def sSeedEnv : Settings :=
  { prefixValue := ""
    env := fun k => if k = "KEY" then "new" else ""
    jsonDec := fun _ v => some v }

/-- A merged source holding `KEY` for the chain-variant engine. -/
def sSeedSourceB : SettingsB :=
  { source := fun k => if k = "KEY" then some "new" else none
    jsonDec := fun _ v => some v }

/-- A lookup mapping both `A` and `B` to nonempty values. -/
def lookupAB : String → String :=
  fun k => if k = "A" then "x" else if k = "B" then "y" else ""

/-- A lookup mapping `A` to a nonempty value and everything else (including
`B`) to the empty string. -/
def lookupAonly : String → String :=
  fun k => if k = "A" then "x" else ""

/-- The empty lookup: every variable is absent. -/
def lookupEmpty : String → String := fun _ => ""

/-- Source mappings for the precedence witness: the same key defined by the
file, environment and flag sources, and the absent variants. -/
def fileSrcW : GoMap := fun k => if k = "KEY" then some "fromFile" else none

def envSrcW : GoMap := fun k => if k = "KEY" then some "fromEnv" else none

def flagSrcW : GoMap := fun k => if k = "KEY" then some "fromFlag" else none

def absentSrc : GoMap := fun _ => none

/-! ### Helper lemmas -/

theorem fldList_ind {P : FldList → Prop} (hnil : P .nil)
    (hcons : ∀ f rest, P rest → P (.cons f rest)) : ∀ fs, P fs
  | .nil => hnil
  | .cons f rest => hcons f rest (fldList_ind hnil hcons rest)

theorem handlePrefixTagVal_not_record (s : Settings) (pfx name : String) (tags : Tags)
    (v : Val) (h : isRecordVal v = false) :
    handlePrefixTagVal s pfx name tags v = (none, v) := by
  cases v <;> simp_all [isRecordVal, handlePrefixTagVal]

/-- The top-level walk is sequential: when the walk of a field block succeeds,
the walk of the block followed by further fields runs the further fields on
the populated state, threading the remaining error. -/
theorem populateConfigFields_append (s : Settings) (xs ys : FldList)
    (h : (populateConfigFields s xs).1 = none) :
    populateConfigFields s (FldList.append xs ys)
      = ((populateConfigFields s ys).1,
         FldList.append (populateConfigFields s xs).2 (populateConfigFields s ys).2) := by
  induction xs using fldList_ind with
  | hnil => simp [populateConfigFields, FldList.append]
  | hcons f rest ih =>
    rcases hpf : processTopField s f with ⟨e, f2⟩
    rcases e with _ | e
    · rcases hr : populateConfigFields s rest with ⟨e2, rest2⟩
      have h2 : (populateConfigFields s rest).1 = none := by
        rw [hr]
        simp [populateConfigFields, hpf, hr] at h
        exact h
      have := ih h2
      simp [populateConfigFields, FldList.append, hpf, hr] at this ⊢
      rw [this]
      exact ⟨rfl, rfl⟩
    · exfalso
      simp [populateConfigFields, hpf] at h

/-! ### Claims -/

/-- C1: Source precedence. When the merged mapping is built from a file
source, the environment source, and the flag source, a key set by the flag
source resolves to the flag-supplied value; with no flag set for the key it
resolves to the environment value; with neither it resolves to the file
source's entry (sources merge in order File, Environment, Flags, each
overwriting overlapping keys from earlier sources). -/
theorem c1_source_precedence (file env flags : GoMap) (k : String) :
    (∀ v, flags k = some v → setMergedSource (some file) env flags k = some v) ∧
    (flags k = none → ∀ v, env k = some v → setMergedSource (some file) env flags k = some v) ∧
    (flags k = none → env k = none → setMergedSource (some file) env flags k = file k) := by
  refine ⟨?_, ?_, ?_⟩
  · intro v hv
    simp [setMergedSource, loadSourcesLoop, mapsCopy, emptyGoMap, hv]
  · intro hf v hv
    simp [setMergedSource, loadSourcesLoop, mapsCopy, emptyGoMap, hf, hv]
  · intro hf he
    cases hfile : file k <;>
      simp [setMergedSource, loadSourcesLoop, mapsCopy, emptyGoMap, hf, he, hfile]

theorem c1_source_precedence_witness :
    setMergedSource (some fileSrcW) envSrcW flagSrcW "KEY" = some "fromFlag" ∧
    setMergedSource (some fileSrcW) envSrcW absentSrc "KEY" = some "fromEnv" ∧
    setMergedSource (some fileSrcW) absentSrc absentSrc "KEY" = some "fromFile" :=
  ⟨(c1_source_precedence fileSrcW envSrcW flagSrcW "KEY").1 "fromFlag" rfl,
   (c1_source_precedence fileSrcW envSrcW absentSrc "KEY").2.1 rfl "fromEnv" rfl,
   ((c1_source_precedence fileSrcW absentSrc absentSrc "KEY").2.2 rfl rfl).trans rfl⟩

/-- C2 counterexample: a value holding the two distinct placeholders
`${A}` and `${B}`, both naming keys with nonempty looked-up values, resolves
to a string in which `${B}` was left unreplaced — not to the fully
substituted string the claim requires, because the scan returns only the
leftmost match. -/
theorem c2_counterexample :
    lookupAB "A" = "x" ∧ lookupAB "B" = "y" ∧
    resolveReplacement lookupAB "$\x7bA\x7d-$\x7bB\x7d" = Except.ok "x-$\x7bB\x7d" ∧
    ("x-$\x7bB\x7d" : String) ≠ "x-y" :=
  ⟨rfl, rfl, rfl, by decide⟩

/-- C2 (amended): the resolver resolves only the leftmost placeholder match
of the value: when its looked-up value is nonempty, the result is the value
with every occurrence of that exact matched substring replaced, in one pass;
the substituted value is never re-scanned, and any later distinct
placeholder is left as it stands. -/
theorem c2_leftmost_single_pass (lookup : String → String) (value : String) (m : List Char)
    (h1 : findLeftmostMatch value.toList = some m)
    (h2 : lookup (matchName m) ≠ "") :
    resolveReplacement lookup value
      = Except.ok (String.mk (replaceAllL value.toList m (lookup (matchName m)).toList)) := by
  have h1d : findLeftmostMatch value.data = some m := h1
  simp [resolveReplacement, findStringSubmatch, h1d, resolveLoop, h2, Except.map]

theorem c2_leftmost_single_pass_witness :
    resolveReplacement lookupAB "$\x7bA\x7d-$\x7bB\x7d" = Except.ok "x-$\x7bB\x7d" :=
  (c2_leftmost_single_pass lookupAB "$\x7bA\x7d-$\x7bB\x7d" ("$\x7bA\x7d".toList) rfl
    (by decide)).trans rfl

/-- C3: a field tagged `required:"true"` whose key (with no `default` tag) has
no value in the consulted mapping makes the populate call return a
`RequiredFieldError`, leaving the record partially populated: fields before
the failing field keep the values the walk set for them, the failing field and
every field after it keep their prior (zero) values. -/
theorem c3_required_field_partial_population (s : Settings) (pre post : FldList)
    (name k : String) (tags : Tags) (value : Val)
    (hpre : (populateConfigFields s pre).1 = none)
    (hleaf : isRecordVal value = false)
    (hzero : isZeroVal value = true)
    (hjson : tags.jsonTag = none)
    (henv : tags.envTag = some k) (hk : k ≠ "")
    (hfetch : s.env (s.prefixValue ++ k) = "")
    (hdef : tags.defaultTag = none)
    (hreq : tags.requiredTag = some "true") :
    populateConfigFields s (FldList.append pre (.cons (.mk name true tags value) post))
      = (some (GoError.requiredField k),
         FldList.append (populateConfigFields s pre).2 (.cons (.mk name true tags value) post)) := by
  have hfetch2 : fetchEnvironmentVariable s.env (s.prefixValue ++ k) tags = "" := by
    simp [fetchEnvironmentVariable, hfetch, hdef]
  have hstep : processTopField s (.mk name true tags value)
      = (some (.requiredField k), .mk name true tags value) := by
    simp [processTopField, hzero, hjson, henv, hk,
      handlePrefixTagVal_not_record s "" name tags value hleaf, hfetch2,
      checkRequiredTag, hreq, parseBool]
  rw [populateConfigFields_append s pre _ hpre]
  simp [populateConfigFields, hstep]

theorem c3_required_field_partial_population_witness :
    populateConfigFields sF1Env
      (FldList.append
        (.cons (.mk "First" true ⟨some "F1", none, none, none, none⟩ (.str "")) .nil)
        (.cons (.mk "Example" true ⟨some "REQ", none, some "true", none, none⟩ (.str ""))
          (.cons (.mk "After" true ⟨some "F1", none, none, none, none⟩ (.str "")) .nil)))
      = (some (GoError.requiredField "REQ"),
         FldList.cons (.mk "First" true ⟨some "F1", none, none, none, none⟩ (.str "v1"))
           (.cons (.mk "Example" true ⟨some "REQ", none, some "true", none, none⟩ (.str ""))
             (.cons (.mk "After" true ⟨some "F1", none, none, none, none⟩ (.str "")) .nil))) :=
  (c3_required_field_partial_population sF1Env
    (.cons (.mk "First" true ⟨some "F1", none, none, none, none⟩ (.str "")) .nil)
    (.cons (.mk "After" true ⟨some "F1", none, none, none, none⟩ (.str "")) .nil)
    "Example" "REQ" ⟨some "REQ", none, some "true", none, none⟩ (.str "")
    rfl rfl rfl rfl rfl (by decide) rfl rfl rfl).trans rfl

/-- C4: nested prefix composition. A nested-record field tagged
`prefix:"A_"` containing a leaf tagged `env:"B"` looks the leaf up at the
concatenated key `"A_B"` (the conclusion holds for every environment, so the
key consulted is exactly `"A_B"`); with triple nesting under prefixes
`"A_"`, `"B_"`, `"C_"` and leaf key `"D"`, the effective key is
`"A_B_C_D"` — ancestor prefixes concatenate in descent order. -/
theorem c4_nested_prefix_composition (s : Settings) (n1 l1 n2 m2 k2 l2 : String) :
    (s.env "A_B" ≠ "" →
      populateConfigFields s
        (.cons (.mk n1 true ⟨none, none, none, none, some "A_"⟩
          (.record (.cons (.mk l1 true ⟨some "B", none, none, none, none⟩ (.str "")) .nil))) .nil)
      = (none, .cons (.mk n1 true ⟨none, none, none, none, some "A_"⟩
          (.record (.cons (.mk l1 true ⟨some "B", none, none, none, none⟩
            (.str (s.env "A_B"))) .nil))) .nil)) ∧
    (s.env "A_B_C_D" ≠ "" →
      populateConfigFields s
        (.cons (.mk n2 true ⟨none, none, none, none, some "A_"⟩
          (.record (.cons (.mk m2 true ⟨none, none, none, none, some "B_"⟩
            (.record (.cons (.mk k2 true ⟨none, none, none, none, some "C_"⟩
              (.record (.cons (.mk l2 true ⟨some "D", none, none, none, none⟩
                (.str "")) .nil))) .nil))) .nil))) .nil)
      = (none, .cons (.mk n2 true ⟨none, none, none, none, some "A_"⟩
          (.record (.cons (.mk m2 true ⟨none, none, none, none, some "B_"⟩
            (.record (.cons (.mk k2 true ⟨none, none, none, none, some "C_"⟩
              (.record (.cons (.mk l2 true ⟨some "D", none, none, none, none⟩
                (.str (s.env "A_B_C_D"))) .nil))) .nil))) .nil))) .nil)) := by
  constructor
  · intro hv
    have e1 : ("" : String) ++ "A_" = "A_" := rfl
    have e2 : ("A_" : String) ++ "B" = "A_B" := rfl
    have hfetch : fetchEnvironmentVariable s.env "A_B" ⟨some "B", none, none, none, none⟩
        = s.env "A_B" := by
      simp [fetchEnvironmentVariable, hv]
    simp [populateConfigFields, processTopField, handlePrefixTagVal, populateNestedConfig,
      processNestedField, isZeroVal, isZeroFlds, e1, e2, hfetch, hv, setFieldValue]
  · intro hv
    have e1 : ("" : String) ++ "A_" = "A_" := rfl
    have e2 : ("A_" : String) ++ "B_" = "A_B_" := rfl
    have e3 : ("A_B_" : String) ++ "C_" = "A_B_C_" := rfl
    have e4 : ("A_B_C_" : String) ++ "D" = "A_B_C_D" := rfl
    have hfetch : fetchEnvironmentVariable s.env "A_B_C_D" ⟨some "D", none, none, none, none⟩
        = s.env "A_B_C_D" := by
      simp [fetchEnvironmentVariable, hv]
    simp [populateConfigFields, processTopField, handlePrefixTagVal, populateNestedConfig,
      processNestedField, isZeroVal, isZeroFlds, e1, e2, e3, e4, hfetch, hv, setFieldValue]

theorem c4_nested_prefix_composition_witness :
    populateConfigFields sNestedEnv
      (.cons (.mk "Inner" true ⟨none, none, none, none, some "A_"⟩
        (.record (.cons (.mk "Leaf" true ⟨some "B", none, none, none, none⟩ (.str "")) .nil))) .nil)
      = (none, .cons (.mk "Inner" true ⟨none, none, none, none, some "A_"⟩
          (.record (.cons (.mk "Leaf" true ⟨some "B", none, none, none, none⟩
            (.str "double")) .nil))) .nil) ∧
    populateConfigFields sNestedEnv
      (.cons (.mk "L1" true ⟨none, none, none, none, some "A_"⟩
        (.record (.cons (.mk "L2" true ⟨none, none, none, none, some "B_"⟩
          (.record (.cons (.mk "L3" true ⟨none, none, none, none, some "C_"⟩
            (.record (.cons (.mk "Leaf" true ⟨some "D", none, none, none, none⟩
              (.str "")) .nil))) .nil))) .nil))) .nil)
      = (none, .cons (.mk "L1" true ⟨none, none, none, none, some "A_"⟩
          (.record (.cons (.mk "L2" true ⟨none, none, none, none, some "B_"⟩
            (.record (.cons (.mk "L3" true ⟨none, none, none, none, some "C_"⟩
              (.record (.cons (.mk "Leaf" true ⟨some "D", none, none, none, none⟩
                (.str "triple")) .nil))) .nil))) .nil))) .nil) :=
  ⟨((c4_nested_prefix_composition sNestedEnv "Inner" "Leaf" "L1" "L2" "L3" "Leaf").1
      (by decide)).trans rfl,
   ((c4_nested_prefix_composition sNestedEnv "Inner" "Leaf" "L1" "L2" "L3" "Leaf").2
      (by decide)).trans rfl⟩

/-- C5 counterexample: a record passed to the merged-source `Set` with its
field pre-seeded to the non-zero value `"old"` comes back with that field
overwritten to the source value `"new"`: the chain engine's env handler has no
zero-ness skip, so pre-seeded fields are not preserved by every population
path. -/
theorem c5_counterexample :
    populateStructB sSeedSourceB
      (.cons (.mk "Example" true ⟨some "KEY", none, none, none, none⟩ (.str "old")) .nil)
      = (none, .cons (.mk "Example" true ⟨some "KEY", none, none, none, none⟩ (.str "new")) .nil)
    ∧ ("old" : String) ≠ "new" :=
  ⟨rfl, by decide⟩

/-- C5 (amended): in the environment-variable population walk
(`populateConfig`), a field holding a non-zero value is skipped and keeps
exactly its prior value, whatever the environment holds; the merged-source
variant's `populateStruct`, by contrast, overwrites a pre-seeded field when
its key exists in the merged source. -/
theorem c5_nonzero_fields_never_overwritten (s : Settings) (fs : FldList) (i : Nat)
    (f : Fld) (hget : fs.get? i = some f) (hnz : isZeroFld f = false) :
    (populateConfigFields s fs).2.get? i = some f := by
  induction fs using fldList_ind generalizing i with
  | hnil => simp [FldList.get?] at hget
  | hcons g rest ih =>
    cases i with
    | zero =>
      simp [FldList.get?] at hget
      subst hget
      have hskip : processTopField s g = (none, g) := by
        cases g with
        | mk n c t v =>
          simp [isZeroFld] at hnz
          simp [processTopField, hnz]
      rcases hre : populateConfigFields s rest with ⟨e2, rest2⟩
      simp [populateConfigFields, hskip, hre, FldList.get?]
    | succ j =>
      simp [FldList.get?] at hget
      rcases hpf : processTopField s g with ⟨e, g2⟩
      rcases e with _ | e
      · rcases hre : populateConfigFields s rest with ⟨e2, rest2⟩
        have hrec := ih j hget
        rw [hre] at hrec
        simp [populateConfigFields, hpf, hre, FldList.get?]
        exact hrec
      · simp [populateConfigFields, hpf, FldList.get?]
        exact hget

theorem c5_nonzero_fields_never_overwritten_witness :
    (populateConfigFields sSeedEnv
      (.cons (.mk "Example" true ⟨some "KEY", none, none, none, none⟩ (.str "old")) .nil)).2.get? 0
      = some (.mk "Example" true ⟨some "KEY", none, none, none, none⟩ (.str "old")) :=
  c5_nonzero_fields_never_overwritten sSeedEnv
    (.cons (.mk "Example" true ⟨some "KEY", none, none, none, none⟩ (.str "old")) .nil) 0
    (.mk "Example" true ⟨some "KEY", none, none, none, none⟩ (.str "old")) rfl rfl

/-- C6 counterexample: the value `${A}${B}` contains the placeholder `${B}`
whose looked-up value is empty, yet the resolver does not fail: it returns the
rewritten string `x${B}`, because only the leftmost match `${A}` is scanned
and checked. -/
theorem c6_counterexample :
    List.IsInfix ("$\x7bB\x7d".toList) ("$\x7bA\x7d$\x7bB\x7d".toList) ∧
    lookupAonly "B" = "" ∧
    resolveReplacement lookupAonly "$\x7bA\x7d$\x7bB\x7d" = Except.ok "x$\x7bB\x7d" :=
  ⟨by decide, rfl, rfl⟩

/-- C6 (amended): when the leftmost placeholder match of the value names a key
whose looked-up value is the empty string (key absent or present-but-empty
being indistinguishable), the resolver fails with a `ReplacementError` naming
that variable and returns no rewritten string; placeholders after the leftmost
match are never checked. -/
theorem c6_leftmost_empty_replacement_error (lookup : String → String) (value : String)
    (m : List Char)
    (h1 : findLeftmostMatch value.toList = some m)
    (h2 : lookup (matchName m) = "") :
    resolveReplacement lookup value = Except.error (.replacement (matchName m)) := by
  have h1d : findLeftmostMatch value.data = some m := h1
  simp [resolveReplacement, findStringSubmatch, h1d, resolveLoop, h2, Except.map]

theorem c6_leftmost_empty_replacement_error_witness :
    resolveReplacement lookupEmpty "$\x7bMISSING\x7d" = Except.error (.replacement "MISSING") :=
  (c6_leftmost_empty_replacement_error lookupEmpty "$\x7bMISSING\x7d"
    ("$\x7bMISSING\x7d".toList) rfl rfl).trans rfl

/-- C7: a record-typed field carrying neither a `prefix` tag nor an `envjson`
tag makes the populate call fail with a `PrefixOptionError` naming that field,
for every environment (the settings, and so the whole consulted mapping, are
universally quantified: the check is structural, not data-dependent), with the
walk stopping there. -/
theorem c7_prefix_option_error_structural (s : Settings) (pre post : FldList)
    (name : String) (tags : Tags) (cs : FldList)
    (hpre : (populateConfigFields s pre).1 = none)
    (hzero : isZeroVal (.record cs) = true)
    (hjson : tags.jsonTag = none)
    (hpfx : tags.prefixTag = none) :
    populateConfigFields s (FldList.append pre (.cons (.mk name true tags (.record cs)) post))
      = (some (GoError.prefixOption name),
         FldList.append (populateConfigFields s pre).2
           (.cons (.mk name true tags (.record cs)) post)) := by
  have hstep : processTopField s (.mk name true tags (.record cs))
      = (some (.prefixOption name), .mk name true tags (.record cs)) := by
    simp [processTopField, hzero, hjson, handlePrefixTagVal, hpfx]
  rw [populateConfigFields_append s pre _ hpre]
  simp [populateConfigFields, hstep]

theorem c7_prefix_option_error_structural_witness :
    populateConfigFields sEmptyEnv
      (FldList.append .nil
        (.cons (.mk "Nested" true ⟨none, none, none, none, none⟩
          (.record (.cons (.mk "Leaf" true ⟨some "X", none, none, none, none⟩ (.str "")) .nil)))
          .nil))
      = (some (GoError.prefixOption "Nested"),
         FldList.cons (.mk "Nested" true ⟨none, none, none, none, none⟩
           (.record (.cons (.mk "Leaf" true ⟨some "X", none, none, none, none⟩ (.str "")) .nil)))
           .nil) :=
  (c7_prefix_option_error_structural sEmptyEnv .nil .nil "Nested"
    ⟨none, none, none, none, none⟩
    (.cons (.mk "Leaf" true ⟨some "X", none, none, none, none⟩ (.str "")) .nil)
    rfl rfl rfl rfl).trans rfl

/-- C8: slice coercion. The raw value `"1, 2, 3"` for an integer-sequence
field populates the ordered sequence `[1, 2, 3]`, and `"first, second,
third"` for a string-sequence field populates `["first", "second", "third"]`:
the raw string splits on `","` into one segment per comma-separated element,
each segment is trimmed of surrounding whitespace, and the parsed elements
keep their original order. -/
theorem c8_slice_coercion :
    populateConfigFields sSliceEnv
      (.cons (.mk "Nums" true ⟨some "NUMS", none, none, none, none⟩ (.intSlice [])) .nil)
      = (none, .cons (.mk "Nums" true ⟨some "NUMS", none, none, none, none⟩
          (.intSlice [1, 2, 3])) .nil) ∧
    populateConfigFields sSliceEnv
      (.cons (.mk "Words" true ⟨some "WORDS", none, none, none, none⟩ (.strSlice [])) .nil)
      = (none, .cons (.mk "Words" true ⟨some "WORDS", none, none, none, none⟩
          (.strSlice ["first", "second", "third"])) .nil) ∧
    splitComma "1, 2, 3" = ["1", " 2", " 3"] ∧
    (splitComma "1, 2, 3").map trimSpace = ["1", "2", "3"] :=
  ⟨rfl, rfl, rfl, rfl⟩

/-- C9: a field tagged both `required:"true"` and `default:"X"` with nonempty
`X` whose key is absent from the environment is populated from the default
literal and the populate call succeeds with no `RequiredFieldError`: the
default substitutes before the required check, which only runs on an empty
fetched value. -/
theorem c9_default_preempts_required (s : Settings) (name k x : String)
    (hk : k ≠ "") (hx : x ≠ "")
    (henv : s.env (s.prefixValue ++ k) = "") :
    populateConfigFields s
      (.cons (.mk name true ⟨some k, some x, some "true", none, none⟩ (.str "")) .nil)
      = (none, .cons (.mk name true ⟨some k, some x, some "true", none, none⟩ (.str x)) .nil) := by
  have hfetch : fetchEnvironmentVariable s.env (s.prefixValue ++ k)
      ⟨some k, some x, some "true", none, none⟩ = x := by
    simp [fetchEnvironmentVariable, henv]
  simp [populateConfigFields, processTopField, handlePrefixTagVal, isZeroVal,
    hk, hx, hfetch, setFieldValue]

theorem c9_default_preempts_required_witness :
    populateConfigFields sEmptyEnv
      (.cons (.mk "Example" true ⟨some "K", some "fallback", some "true", none, none⟩
        (.str "")) .nil)
      = (none, .cons (.mk "Example" true ⟨some "K", some "fallback", some "true", none, none⟩
          (.str "fallback")) .nil) :=
  c9_default_preempts_required sEmptyEnv "Example" "K" "fallback"
    (by decide) (by decide) rfl

/-- C10: the global `WithPrefix` value prepends only to top-level leaf keys:
for every settings value (so for every global prefix and environment), the
top-level leaf tagged `env:"K"` is looked up at `prefix ++ "K"` while the leaf
inside the `prefix:"A_"`-tagged nested record is looked up at exactly
`"A_B"`, with no global prefix applied. -/
theorem c10_global_prefix_top_level_only (s : Settings)
    (ht : s.env (s.prefixValue ++ "K") ≠ "") (hn : s.env "A_B" ≠ "") :
    populateConfigFields s
      (.cons (.mk "Top" true ⟨some "K", none, none, none, none⟩ (.str ""))
       (.cons (.mk "Inner" true ⟨none, none, none, none, some "A_"⟩
        (.record (.cons (.mk "Leaf" true ⟨some "B", none, none, none, none⟩ (.str "")) .nil)))
        .nil))
      = (none,
         .cons (.mk "Top" true ⟨some "K", none, none, none, none⟩
           (.str (s.env (s.prefixValue ++ "K"))))
          (.cons (.mk "Inner" true ⟨none, none, none, none, some "A_"⟩
            (.record (.cons (.mk "Leaf" true ⟨some "B", none, none, none, none⟩
              (.str (s.env "A_B"))) .nil)))
            .nil)) := by
  have e1 : ("" : String) ++ "A_" = "A_" := rfl
  have e2 : ("A_" : String) ++ "B" = "A_B" := rfl
  have hfetchT : fetchEnvironmentVariable s.env (s.prefixValue ++ "K")
      ⟨some "K", none, none, none, none⟩ = s.env (s.prefixValue ++ "K") := by
    simp [fetchEnvironmentVariable, ht]
  have hfetchN : fetchEnvironmentVariable s.env "A_B" ⟨some "B", none, none, none, none⟩
      = s.env "A_B" := by
    simp [fetchEnvironmentVariable, hn]
  simp [populateConfigFields, processTopField, handlePrefixTagVal, populateNestedConfig,
    processNestedField, isZeroVal, isZeroFlds, e1, e2, hfetchT, hfetchN, ht, hn, setFieldValue]

theorem c10_global_prefix_top_level_only_witness :
    populateConfigFields sGlobEnv
      (.cons (.mk "Top" true ⟨some "K", none, none, none, none⟩ (.str ""))
       (.cons (.mk "Inner" true ⟨none, none, none, none, some "A_"⟩
        (.record (.cons (.mk "Leaf" true ⟨some "B", none, none, none, none⟩ (.str "")) .nil)))
        .nil))
      = (none,
         .cons (.mk "Top" true ⟨some "K", none, none, none, none⟩ (.str "top"))
          (.cons (.mk "Inner" true ⟨none, none, none, none, some "A_"⟩
            (.record (.cons (.mk "Leaf" true ⟨some "B", none, none, none, none⟩
              (.str "nested")) .nil)))
            .nil)) :=
  (c10_global_prefix_top_level_only sGlobEnv (by decide) (by decide)).trans rfl
